import Mathlib

/-!
Shallow embedding of the cubeglobe-bot posting state machine (src/main.rs).

The program is a single-file bot: a durable `State` record (toml file on
disk) tracks `last_post`, a sequence `id`, and a two-valued `phase`
(`Awaiting`/`Generated`).  The run-forever loop waits until the next post
is due (interval plus uniform jitter), generates an image, writes it to
`images/<id>.png`, persists `phase = Generated`, then attempts to post;
publish failures are retried with a fixed escalating backoff table, and a
success persists `{last_post = now, id = id + 1, phase = Awaiting}`.

Side effects (sleeps, file writes, record persists, publish calls) are
modelled as an explicit event trace; the non-deterministic environment of
one loop iteration (clock readings, the jitter draw, the generated bytes,
whether generation and the publish call succeed) is an explicit `Env`
record.  `expect`-style panics (which abort the process) are modelled by a
`none` outcome, with the trace and file system reflecting what happened
before the abort.  Persist and artifact-write IO is assumed to succeed
(their failures are process-aborting panics that none of the verified
properties depend on).  `u32` arithmetic is modelled on `Nat` with an
explicit `% 2^32` where the source increments the counter.
-/

/-- Image/file contents as a byte list. -/
abbrev Bytes := List Nat

/-- The artifact directory on disk, as an association list from path to
contents; the most recent write of a path shadows older entries. -/
abbrev FS := List (String × Bytes)

/-- Write (create or overwrite) a file. -/
def fsWrite (fs : FS) (p : String) (b : Bytes) : FS := (p, b) :: fs

/-- Read a file; `none` when it does not exist. -/
def fsLookup : FS → String → Option Bytes
  | [], _ => none
  | (q, b) :: rest, p => if q = p then some b else fsLookup rest p

/-- `const STATE_PATH: &str = "state"` (main.rs line 35). -/
def STATE_PATH : String := "state"

/-- `const IMAGES_DIR: &str = "images"` (main.rs line 36). -/
def IMAGES_DIR : String := "images"

/-- `const DELAYS: &[u64] = &[30, 60, 300, 900]` (main.rs line 40):
30 seconds, 1 minute, 5 minutes, 15 minutes. -/
def DELAYS : List Nat := [30, 60, 300, 900]

/-- `enum Phase { Awaiting, Generated }` (main.rs lines 86-90). -/
inductive Phase where
  | Awaiting
  | Generated
deriving DecidableEq, Repr

/-- `struct State { last_post: Option<DateTime<Utc>>, id: u32, phase: Phase }`
(main.rs lines 79-84).  Timestamps are modelled as integers (seconds). -/
structure State where
  last_post : Option Int
  id : Nat
  phase : Phase
deriving DecidableEq, Repr

/-- `impl Default for State` (main.rs lines 92-100). -/
def State.default : State :=
  { last_post := none, id := 1, phase := Phase.Awaiting }

/-- `State::get_state` (main.rs lines 104-109):
`read_to_string(STATE_PATH).ok().and_then(|s| toml::from_str(s).ok()).unwrap_or_default()`.
`readResult` models `read_to_string(STATE_PATH).ok()` (a missing or
unreadable file gives `none`); `parse` models `|s| toml::from_str::<State>(s).ok()`. -/
def State.get_state (readResult : Option String) (parse : String → Option State) : State :=
  (readResult.bind parse).getD State.default

/-- File-system operations performed by `State::persist`, with the record
standing for its serialized form. -/
inductive FsOp where
  | create (path : String)
  | writeAll (path : String) (record : State)
  | rename (src : String) (dst : String)
deriving DecidableEq, Repr

/-- `State::persist` (main.rs lines 112-119): serializes `self` with
`toml::to_string`, opens the record file with `File::create(STATE_PATH)`
(which truncates in place), and `write_all`s the bytes into it.  The
returned list is the sequence of file-system operations performed. -/
def State.persist_ops (s : State) : List FsOp :=
  [FsOp.create STATE_PATH, FsOp.writeAll STATE_PATH s]

/-- `State::get_filename` (main.rs lines 122-130): pushes `IMAGES_DIR`,
then `format!("{}", self.id)`, then sets the extension to `png`.  The
`create_dir_all` side effect and its possible IO failure are elided. -/
def State.get_filename (s : State) : String :=
  IMAGES_DIR ++ "/" ++ toString s.id ++ ".png"

/-- The two error outcomes of `State::get_saved_image`: `BadStateError`
(main.rs lines 221-223) when called in the `Awaiting` phase, and an IO
error from `read` when the artifact file is missing. -/
inductive ImgError where
  | badState
  | ioError
deriving DecidableEq, Repr

/-- `State::get_saved_image` (main.rs lines 132-140): in `Awaiting` phase
returns `BadStateError` without touching the file system; otherwise reads
the artifact file at `get_filename`. -/
def State.get_saved_image (s : State) (fs : FS) : Except ImgError Bytes :=
  match s.phase with
  | Phase.Awaiting => Except.error ImgError.badState
  | Phase.Generated =>
    match fsLookup fs s.get_filename with
    | some b => Except.ok b
    | none => Except.error ImgError.ioError

/-- `State::posted` (main.rs lines 143-149): `last_post = Some(Utc::now())`,
`id = self.id + 1` (u32 addition, hence the `% 2^32`), `phase = Awaiting`.
`now` is the clock reading `Utc::now()`. -/
def State.posted (s : State) (now : Int) : State :=
  { last_post := some now, id := (s.id + 1) % 4294967296, phase := Phase.Awaiting }

/-- `State::generated` (main.rs lines 152-157): only the phase changes. -/
def State.generated (s : State) : State :=
  { s with phase := Phase.Generated }

/-- `get_backoff` (main.rs lines 260-267).  `attempt` is 1-indexed; past
the end of the table the last entry is returned (`DELAYS.last().unwrap()`,
which cannot fail since `DELAYS` is a non-empty constant, modelled with
default 0; likewise the in-bounds index `DELAYS[attempt - 1]`). -/
def get_backoff (attempt : Nat) : Nat :=
  if attempt > DELAYS.length then DELAYS.getLastD 0
  else DELAYS.getD (attempt - 1) 0

/-- The bot configuration fields the state machine itself consumes
(main.rs lines 49-64): `sleep_time` (nominal posting interval, seconds)
and `jitter` (bound on the uniform jitter draw, seconds).  The remaining
fields parameterize only the external map generator. -/
structure BotConfig where
  sleep_time : Int
  jitter : Int
deriving DecidableEq, Repr

/-- The sources of non-determinism consumed by one iteration of the main
loop (or by one immediate-mode run): the clock reading at the due-time
check, the jitter draw `rng.gen_range(0 - jitter, jitter)`, whether image
generation succeeds and the bytes it yields, whether the publish call
succeeds, and the clock reading `Utc::now()` inside `State::posted`. -/
structure Env where
  now_sched : Int
  draw : Int
  gen_ok : Bool
  gen_image : Bytes
  publish_ok : Bool
  now_post : Int
deriving DecidableEq, Repr

/-- In-memory loop state (main.rs lines 344-345 and the `state` variable):
the current record, the cached artifact bytes `current_image`, and the
publish attempt counter. -/
structure Iter where
  state : State
  current_image : Option Bytes
  attempt : Nat
deriving DecidableEq, Repr

/-- Observable side effects of the loop, in order. -/
inductive Event where
  | sleep (secs : Int)
  | produce
  | fswrite (path : String) (bytes : Bytes)
  | persist (s : State)
  | publish (bytes : Bytes)
deriving DecidableEq, Repr

/-- The scheduled posting instant (main.rs lines 351-356):
`last_post + (sleep_time + draw)` where `draw` is the jitter sample. -/
def scheduled_time (cfg : BotConfig) (lastPost draw : Int) : Int :=
  lastPost + (cfg.sleep_time + draw)

/-- The wait the scheduler imposes before production (main.rs lines
348-371): with no previous post, production starts immediately; otherwise
the loop sleeps `scheduled - now` unless that is already negative. -/
def schedule_wait (cfg : BotConfig) (lastPost : Option Int) (draw now : Int) : Int :=
  match lastPost with
  | none => 0
  | some t =>
    let actual := scheduled_time cfg t draw - now
    if actual < 0 then 0 else actual

/-- The sleep events the due-time check emits: none when there was no
previous post or the scheduled instant has passed, otherwise one sleep of
`scheduled - now` (which the source performs even when it is zero). -/
def sched_events (cfg : BotConfig) (lastPost : Option Int) (draw now : Int) : List Event :=
  match lastPost with
  | none => []
  | some t =>
    let actual := scheduled_time cfg t draw - now
    if actual < 0 then [] else [Event.sleep actual]

/-- `current_image.unwrap_or_else(|| state.get_saved_image()...)`
(main.rs lines 408-412): the cached bytes if present, else the artifact
reloaded from disk. -/
def resolve_image (it : Iter) (fs : FS) : Option Bytes :=
  match it.current_image with
  | some img => some img
  | none => (it.state.get_saved_image fs).toOption

/-- The `if let Phase::Awaiting` block of the loop body (main.rs lines
348-405): wait until due, generate the image (a failure is an aborting
`expect`, outcome `none`), write `images/<id>.png`, cache the bytes, move
the record to `Generated` and persist it.  In `Generated` phase the block
is skipped. -/
def produce_stage (cfg : BotConfig) (it : Iter) (fs : FS) (env : Env) :
    List Event × FS × Option Iter :=
  match it.state.phase with
  | Phase.Generated => ([], fs, some it)
  | Phase.Awaiting =>
    let ev0 := sched_events cfg it.state.last_post env.draw env.now_sched
    if env.gen_ok then
      let path := it.state.get_filename
      let st := it.state.generated
      (ev0 ++ [Event.produce, Event.fswrite path env.gen_image, Event.persist st],
        fsWrite fs path env.gen_image,
        some { state := st, current_image := some env.gen_image, attempt := it.attempt })
    else
      (ev0 ++ [Event.produce], fs, none)

/-- The `if let Phase::Generated` block of the loop body (main.rs lines
407-435): resolve the artifact bytes (an aborting `expect` if neither the
cache nor the file yields them), increment the attempt counter, post; on
success persist `posted`, drop the cache and reset the counter to 0; on
failure keep the record untouched, sleep `get_backoff(attempt)` and put
the same bytes back in the cache.  In `Awaiting` phase the block is
skipped. -/
def publish_stage (it : Iter) (fs : FS) (env : Env) :
    List Event × FS × Option Iter :=
  match it.state.phase with
  | Phase.Awaiting => ([], fs, some it)
  | Phase.Generated =>
    match resolve_image it fs with
    | none => ([], fs, none)
    | some img =>
      let attempt := it.attempt + 1
      if env.publish_ok then
        let st := it.state.posted env.now_post
        ([Event.publish img, Event.persist st], fs,
          some { state := st, current_image := none, attempt := 0 })
      else
        ([Event.publish img, Event.sleep (Int.ofNat (get_backoff attempt))], fs,
          some { state := it.state, current_image := some img, attempt := attempt })

/-- One iteration of the run-forever loop (main.rs lines 347-436): the
`Awaiting` block, then — on the same iteration, since it leaves the phase
at `Generated` — the `Generated` block. -/
def loop_body (cfg : BotConfig) (it : Iter) (fs : FS) (env : Env) :
    List Event × FS × Option Iter :=
  match produce_stage cfg it fs env with
  | (tr, fs1, none) => (tr, fs1, none)
  | (tr, fs1, some it1) =>
    match publish_stage it1 fs1 env with
    | (tr2, fs2, r) => (tr ++ tr2, fs2, r)

/-- Finitely many iterations of the run-forever loop, one `Env` per
iteration; stops early (with outcome `none`) if an iteration aborts. -/
def run_loop (cfg : BotConfig) : Iter → FS → List Env → List Event × FS × Option Iter
  | it, fs, [] => ([], fs, some it)
  | it, fs, e :: rest =>
    match loop_body cfg it fs e with
    | (tr, fs1, none) => (tr, fs1, none)
    | (tr, fs1, some it1) =>
      match run_loop cfg it1 fs1 rest with
      | (tr2, fs2, r) => (tr ++ tr2, fs2, r)

/-- The records persisted in a trace, in order. -/
def persists (tr : List Event) : List State :=
  tr.filterMap fun e =>
    match e with
    | Event.persist s => some s
    | _ => none

/-- The durable record after a trace of events, starting from `d`:
each persist replaces it. -/
def applyDurable (d : State) (tr : List Event) : State :=
  tr.foldl (fun acc e => match e with | Event.persist s => s | _ => acc) d

/-- `true` iff every persist of a `Generated`-phase record in the trace is
preceded (within the trace, given the initially existing paths `written`)
by a write of that record's artifact file. -/
def coveredFrom (written : List String) : List Event → Bool
  | [] => true
  | e :: rest =>
    match e with
    | Event.fswrite p _ => coveredFrom (p :: written) rest
    | Event.persist s =>
      (match s.phase with
       | Phase.Generated => decide (s.get_filename ∈ written)
       | Phase.Awaiting => true) && coveredFrom written rest
    | _ => coveredFrom written rest

/-- Number of publish attempts in a trace. -/
def countPublish (tr : List Event) : Nat :=
  (tr.filter fun e => match e with | Event.publish _ => true | _ => false).length

/-- Whether a trace contains any timed suspension. -/
def hasSleep (tr : List Event) : Bool :=
  tr.any fun e => match e with | Event.sleep _ => true | _ => false

/-- Whether a list of file-system operations contains a rename. -/
def hasRename (ops : List FsOp) : Bool :=
  ops.any fun op => match op with | FsOp.rename _ _ => true | _ => false

/-- Immediate mode (`--immediate`, main.rs lines 306-342): no due-time
check, generate (an aborting `expect` on failure), write the artifact
file, persist `Generated`, post once (an aborting `expect` on failure,
with no retry), then persist `posted`.  The final component is the
in-memory record when the process exits normally, `none` on abort. -/
def immediate_mode (st : State) (fs : FS) (env : Env) :
    List Event × FS × Option State :=
  if env.gen_ok then
    let path := st.get_filename
    let fs1 := fsWrite fs path env.gen_image
    let st1 := st.generated
    if env.publish_ok then
      let st2 := st1.posted env.now_post
      ([Event.produce, Event.fswrite path env.gen_image, Event.persist st1,
        Event.publish env.gen_image, Event.persist st2], fs1, some st2)
    else
      ([Event.produce, Event.fswrite path env.gen_image, Event.persist st1,
        Event.publish env.gen_image], fs1, none)
  else ([Event.produce], fs, none)

/-! Theorems. -/

theorem get_backoff_eq_900 {n : Nat} (h : DELAYS.length < n) : get_backoff n = 900 := by
  simp only [get_backoff, gt_iff_lt]
  rw [if_pos h]
  rfl

theorem get_backoff_le_900 (n : Nat) : get_backoff n ≤ 900 := by
  by_cases h : DELAYS.length < n
  · rw [get_backoff_eq_900 h]
  · have h4 : n ≤ 4 := by simpa [DELAYS] using h
    interval_cases n <;> decide

theorem get_backoff_mono {n m : Nat} (h : n ≤ m) : get_backoff n ≤ get_backoff m := by
  by_cases hm : DELAYS.length < m
  · rw [get_backoff_eq_900 hm]
    exact get_backoff_le_900 n
  · have hm4 : m ≤ 4 := by simpa [DELAYS] using hm
    have hn4 : n ≤ 4 := le_trans h hm4
    interval_cases n <;> interval_cases m <;> decide

/-- C5: for every attempt number `n ≥ 1`, `get_backoff n` equals the n-th
entry of the table `DELAYS = [30, 60, 300, 900]` while `n` is within the
table, equals the last entry 900 for every `n` beyond the table length,
and is non-decreasing in `n` (and, being a total function, always returns
a delay). -/
theorem c5_backoff_table (n : Nat) (h : 1 ≤ n) :
    DELAYS = [30, 60, 300, 900] ∧
    (n ≤ DELAYS.length → get_backoff n = DELAYS.getD (n - 1) 0) ∧
    (DELAYS.length < n → get_backoff n = 900) ∧
    (∀ m, n ≤ m → get_backoff n ≤ get_backoff m) := by
  refine ⟨rfl, ?_, fun hgt => get_backoff_eq_900 hgt, fun m hm => get_backoff_mono hm⟩
  intro hle
  have h4 : n ≤ 4 := by simpa [DELAYS] using hle
  interval_cases n <;> decide

theorem c5_backoff_table_witness :
    (1 : Nat) ≤ 2 ∧ get_backoff 2 ≤ get_backoff 5 :=
  ⟨by decide, (c5_backoff_table 2 (by decide)).2.2.2 5 (by decide)⟩

/-- C6: with `last_post = some T`, nominal interval `sleep_time` and a
jitter draw in `[-jitter, jitter)`, the scheduled instant lies in
`[T + interval - jitter, T + interval + jitter]`; when `now` has reached
it the wait is 0 (production starts immediately), otherwise the wait is
`scheduled - now`; and with `last_post = none` the wait is 0. -/
theorem c6_scheduler (cfg : BotConfig) (T draw now : Int)
    (h1 : -cfg.jitter ≤ draw) (h2 : draw < cfg.jitter) :
    (T + cfg.sleep_time - cfg.jitter ≤ scheduled_time cfg T draw ∧
      scheduled_time cfg T draw ≤ T + cfg.sleep_time + cfg.jitter) ∧
    (scheduled_time cfg T draw ≤ now → schedule_wait cfg (some T) draw now = 0) ∧
    (now < scheduled_time cfg T draw →
      schedule_wait cfg (some T) draw now = scheduled_time cfg T draw - now) ∧
    schedule_wait cfg none draw now = 0 := by
  refine ⟨⟨by simp only [scheduled_time]; omega, by simp only [scheduled_time]; omega⟩,
    ?_, ?_, rfl⟩
  · intro h
    simp only [schedule_wait, scheduled_time] at *
    split <;> omega
  · intro h
    simp only [schedule_wait, scheduled_time] at *
    split <;> omega

theorem c6_scheduler_witness :
    -(300 : Int) ≤ 100 ∧ (100 : Int) < 300 ∧
    schedule_wait ⟨3600, 300⟩ (some 0) 100 5000 = 0 :=
  ⟨by decide, by decide,
    (c6_scheduler ⟨3600, 300⟩ 0 100 5000 (by decide) (by decide)).2.1 (by decide)⟩

/-- C7: `State::get_state` never fails the caller: a missing or unreadable
state file (`readResult = none`) or unparsable contents (`parse s = none`)
yields the default record `{last_post = none, id = 1, phase = Awaiting}`,
and on a missing file every call returns that same record. -/
theorem c7_get_state_defaults :
    (∀ parse : String → Option State,
      State.get_state none parse = State.mk none 1 Phase.Awaiting) ∧
    (∀ (parse : String → Option State) (s : String), parse s = none →
      State.get_state (some s) parse = State.mk none 1 Phase.Awaiting) ∧
    (∀ p1 p2 : String → Option State,
      State.get_state none p1 = State.get_state none p2) := by
  refine ⟨fun parse => rfl, fun parse s h => ?_, fun p1 p2 => rfl⟩
  simp [State.get_state, h, State.default]

theorem c7_get_state_defaults_witness :
    State.get_state (some "garbage") (fun _ => none) = State.mk none 1 Phase.Awaiting :=
  c7_get_state_defaults.2.1 (fun _ => none) "garbage" rfl

/-- C8 counterexample: at the concrete record `State.default`,
`State::persist` performs exactly `File::create("state")` (truncation in
place) followed by a `write_all` of the serialized record into that same
path — and no rename of any temporary file — refuting the claim that the
write is an atomic temp-then-rename replace rather than a truncate-and-
write of the record file in place. -/
theorem c8_persist_counterexample :
    State.default.persist_ops =
      [FsOp.create "state", FsOp.writeAll "state" State.default] ∧
    hasRename State.default.persist_ops = false :=
  ⟨rfl, rfl⟩

/-- C8 amended: `State::persist` serializes the record and writes it by
creating (truncating) the record file `STATE_PATH` in place and writing
the bytes there; it uses no temporary file and no rename, so no atomic
replace shields a concurrent reader from observing a half-written
record. -/
theorem c8_persist_in_place (s : State) :
    s.persist_ops = [FsOp.create STATE_PATH, FsOp.writeAll STATE_PATH s] ∧
    hasRename s.persist_ops = false :=
  ⟨rfl, rfl⟩

/-- C10: in the `Awaiting` phase, `State::get_saved_image` returns
`BadStateError` without reading any artifact file (its result does not
depend on the file system at all), and it returns artifact bytes only in
the `Generated` phase. -/
theorem c10_get_saved_image_phase (s : State) (fs fs2 : FS) :
    (s.phase = Phase.Awaiting →
      s.get_saved_image fs = Except.error ImgError.badState ∧
      s.get_saved_image fs = s.get_saved_image fs2) ∧
    (∀ b : Bytes, s.get_saved_image fs = Except.ok b → s.phase = Phase.Generated) := by
  constructor
  · intro h
    constructor <;> simp [State.get_saved_image, h]
  · intro b hb
    cases hph : s.phase with
    | Awaiting => simp [State.get_saved_image, hph] at hb
    | Generated => rfl

theorem c10_get_saved_image_phase_witness :
    State.get_saved_image ⟨none, 1, Phase.Awaiting⟩ [] = Except.error ImgError.badState :=
  ((c10_get_saved_image_phase ⟨none, 1, Phase.Awaiting⟩ [] [("a", [0])]).1 rfl).1

theorem resolve_image_cached {it : Iter} {fs : FS} {img : Bytes}
    (him : it.current_image = some img) : resolve_image it fs = some img := by
  simp [resolve_image, him]

theorem resolve_image_from_disk {st : State} {a : Nat} {fs : FS} {bytes : Bytes}
    (hph : st.phase = Phase.Generated)
    (hfs : fsLookup fs st.get_filename = some bytes) :
    resolve_image ⟨st, none, a⟩ fs = some bytes := by
  simp [resolve_image, State.get_saved_image, hph, hfs, Except.toOption]

theorem produce_stage_gen {cfg : BotConfig} {it : Iter} {fs : FS} {env : Env}
    (hph : it.state.phase = Phase.Generated) :
    produce_stage cfg it fs env = ([], fs, some it) := by
  simp [produce_stage, hph]

theorem publish_stage_fail {it : Iter} {fs : FS} {env : Env} {img : Bytes}
    (hph : it.state.phase = Phase.Generated)
    (hres : resolve_image it fs = some img)
    (hpub : env.publish_ok = false) :
    publish_stage it fs env =
      ([Event.publish img, Event.sleep (Int.ofNat (get_backoff (it.attempt + 1)))], fs,
        some ⟨it.state, some img, it.attempt + 1⟩) := by
  simp [publish_stage, hph, hres, hpub]

theorem publish_stage_ok {it : Iter} {fs : FS} {env : Env} {img : Bytes}
    (hph : it.state.phase = Phase.Generated)
    (hres : resolve_image it fs = some img)
    (hpub : env.publish_ok = true) :
    publish_stage it fs env =
      ([Event.publish img, Event.persist (it.state.posted env.now_post)], fs,
        some ⟨it.state.posted env.now_post, none, 0⟩) := by
  simp [publish_stage, hph, hres, hpub]

theorem loop_body_gen_fail {cfg : BotConfig} {it : Iter} {fs : FS} {env : Env} {img : Bytes}
    (hph : it.state.phase = Phase.Generated)
    (hres : resolve_image it fs = some img)
    (hpub : env.publish_ok = false) :
    loop_body cfg it fs env =
      ([Event.publish img, Event.sleep (Int.ofNat (get_backoff (it.attempt + 1)))], fs,
        some ⟨it.state, some img, it.attempt + 1⟩) := by
  simp [loop_body, produce_stage_gen hph, publish_stage_fail hph hres hpub]

theorem loop_body_gen_ok {cfg : BotConfig} {it : Iter} {fs : FS} {env : Env} {img : Bytes}
    (hph : it.state.phase = Phase.Generated)
    (hres : resolve_image it fs = some img)
    (hpub : env.publish_ok = true) :
    loop_body cfg it fs env =
      ([Event.publish img, Event.persist (it.state.posted env.now_post)], fs,
        some ⟨it.state.posted env.now_post, none, 0⟩) := by
  simp [loop_body, produce_stage_gen hph, publish_stage_ok hph hres hpub]

/-- C4: a failed publish attempt in the `Generated` phase persists nothing
and leaves the record untouched (same `id`, `phase`, `last_post`), bumps
the attempt counter by exactly 1, sleeps for `get_backoff` of the bumped
counter, and loops back with the same artifact bytes cached, still in the
`Generated` phase. -/
theorem c4_publish_failure (cfg : BotConfig) (it : Iter) (fs : FS) (env : Env) (img : Bytes)
    (hph : it.state.phase = Phase.Generated)
    (hres : resolve_image it fs = some img)
    (hpub : env.publish_ok = false) :
    loop_body cfg it fs env =
      ([Event.publish img, Event.sleep (Int.ofNat (get_backoff (it.attempt + 1)))], fs,
        some ⟨it.state, some img, it.attempt + 1⟩) ∧
    persists (loop_body cfg it fs env).1 = [] := by
  refine ⟨loop_body_gen_fail hph hres hpub, ?_⟩
  rw [loop_body_gen_fail hph hres hpub]
  rfl

theorem c4_publish_failure_witness :
    loop_body ⟨3600, 300⟩ ⟨⟨none, 1, Phase.Generated⟩, some [7], 0⟩ [] ⟨0, 0, true, [], false, 5⟩ =
      ([Event.publish [7], Event.sleep (Int.ofNat (get_backoff 1))], [],
        some ⟨⟨none, 1, Phase.Generated⟩, some [7], 1⟩) :=
  (c4_publish_failure ⟨3600, 300⟩ ⟨⟨none, 1, Phase.Generated⟩, some [7], 0⟩ []
    ⟨0, 0, true, [], false, 5⟩ [7] rfl rfl rfl).1

/-- C3: on an iteration that resumes in the `Generated` phase with no
in-memory artifact (a restart), the single publish attempt submits exactly
the bytes read from the artifact file at `images/<id>.png` (the path
derived from the record's `sequenceId`), and content production is not
invoked. -/
theorem c3_resume_from_disk (cfg : BotConfig) (st : State) (a : Nat) (fs : FS) (env : Env)
    (bytes : Bytes)
    (hph : st.phase = Phase.Generated)
    (hfs : fsLookup fs (IMAGES_DIR ++ "/" ++ toString st.id ++ ".png") = some bytes) :
    countPublish (loop_body cfg ⟨st, none, a⟩ fs env).1 = 1 ∧
    Event.publish bytes ∈ (loop_body cfg ⟨st, none, a⟩ fs env).1 ∧
    (∀ b : Bytes, Event.publish b ∈ (loop_body cfg ⟨st, none, a⟩ fs env).1 → b = bytes) ∧
    Event.produce ∉ (loop_body cfg ⟨st, none, a⟩ fs env).1 := by
  have hres : resolve_image ⟨st, none, a⟩ fs = some bytes :=
    resolve_image_from_disk hph hfs
  cases hp : env.publish_ok
  · rw [loop_body_gen_fail hph hres hp]
    refine ⟨rfl, by simp, ?_, by simp⟩
    intro b hb
    simpa using hb
  · rw [loop_body_gen_ok hph hres hp]
    refine ⟨rfl, by simp, ?_, by simp⟩
    intro b hb
    simpa using hb

theorem c3_resume_from_disk_witness :
    Event.publish [3, 1, 4] ∈
      (loop_body ⟨3600, 300⟩ ⟨⟨some 10, 5, Phase.Generated⟩, none, 0⟩
        [("images/5.png", [3, 1, 4])] ⟨0, 0, true, [], true, 99⟩).1 :=
  (c3_resume_from_disk ⟨3600, 300⟩ ⟨some 10, 5, Phase.Generated⟩ 0
    [("images/5.png", [3, 1, 4])] ⟨0, 0, true, [], true, 99⟩ [3, 1, 4] rfl (by rfl)).2.1

/-- C9: immediate mode performs at most one publish attempt, never sleeps
(no due-time wait and no backoff retry), and when content production fails
it aborts with nothing persisted and the file system untouched: the
durable record is unchanged and still `Awaiting`. -/
theorem c9_immediate (st : State) (fs : FS) (env : Env)
    (hph : st.phase = Phase.Awaiting) :
    countPublish (immediate_mode st fs env).1 ≤ 1 ∧
    hasSleep (immediate_mode st fs env).1 = false ∧
    (env.gen_ok = false →
      immediate_mode st fs env = ([Event.produce], fs, none) ∧
      applyDurable st (immediate_mode st fs env).1 = st ∧
      (applyDurable st (immediate_mode st fs env).1).phase = Phase.Awaiting) := by
  cases hg : env.gen_ok <;> cases hp : env.publish_ok <;>
    simp [immediate_mode, hg, hp, countPublish, hasSleep, applyDurable, hph]

theorem c9_immediate_witness :
    immediate_mode ⟨none, 1, Phase.Awaiting⟩ [] ⟨0, 0, false, [], false, 0⟩ =
      ([Event.produce], [], none) :=
  ((c9_immediate ⟨none, 1, Phase.Awaiting⟩ [] ⟨0, 0, false, [], false, 0⟩ rfl).2.2 rfl).1

theorem fsLookup_fsWrite_self (fs : FS) (p : String) (b : Bytes) :
    fsLookup (fsWrite fs p b) p = some b := by
  simp [fsWrite, fsLookup]

theorem coveredFrom_sched_append (w : List String) (cfg : BotConfig) (lp : Option Int)
    (draw now : Int) (rest : List Event) :
    coveredFrom w (sched_events cfg lp draw now ++ rest) = coveredFrom w rest := by
  cases lp
  · rfl
  · simp only [sched_events]
    split <;> rfl

theorem applyDurable_sched_append (d : State) (cfg : BotConfig) (lp : Option Int)
    (draw now : Int) (rest : List Event) :
    applyDurable d (sched_events cfg lp draw now ++ rest) = applyDurable d rest := by
  cases lp
  · rfl
  · simp only [sched_events]
    split <;> rfl

theorem loop_body_awaiting_genfail {cfg : BotConfig} {it : Iter} {fs : FS} {env : Env}
    (hph : it.state.phase = Phase.Awaiting) (hg : env.gen_ok = false) :
    loop_body cfg it fs env =
      (sched_events cfg it.state.last_post env.draw env.now_sched ++ [Event.produce],
        fs, none) := by
  simp [loop_body, produce_stage, hph, hg]

theorem loop_body_awaiting_genok_pubfail {cfg : BotConfig} {it : Iter} {fs : FS} {env : Env}
    (hph : it.state.phase = Phase.Awaiting) (hg : env.gen_ok = true)
    (hp : env.publish_ok = false) :
    loop_body cfg it fs env =
      (sched_events cfg it.state.last_post env.draw env.now_sched ++
        [Event.produce, Event.fswrite it.state.get_filename env.gen_image,
          Event.persist it.state.generated, Event.publish env.gen_image,
          Event.sleep (Int.ofNat (get_backoff (it.attempt + 1)))],
        fsWrite fs it.state.get_filename env.gen_image,
        some ⟨it.state.generated, some env.gen_image, it.attempt + 1⟩) := by
  have h1 : produce_stage cfg it fs env =
      (sched_events cfg it.state.last_post env.draw env.now_sched ++
        [Event.produce, Event.fswrite it.state.get_filename env.gen_image,
          Event.persist it.state.generated],
        fsWrite fs it.state.get_filename env.gen_image,
        some ⟨it.state.generated, some env.gen_image, it.attempt⟩) := by
    simp [produce_stage, hph, hg]
  have h2 : publish_stage ⟨it.state.generated, some env.gen_image, it.attempt⟩
      (fsWrite fs it.state.get_filename env.gen_image) env =
      ([Event.publish env.gen_image, Event.sleep (Int.ofNat (get_backoff (it.attempt + 1)))],
        fsWrite fs it.state.get_filename env.gen_image,
        some ⟨it.state.generated, some env.gen_image, it.attempt + 1⟩) :=
    publish_stage_fail rfl rfl hp
  simp [loop_body, h1, h2]

theorem loop_body_awaiting_genok_pubok {cfg : BotConfig} {it : Iter} {fs : FS} {env : Env}
    (hph : it.state.phase = Phase.Awaiting) (hg : env.gen_ok = true)
    (hp : env.publish_ok = true) :
    loop_body cfg it fs env =
      (sched_events cfg it.state.last_post env.draw env.now_sched ++
        [Event.produce, Event.fswrite it.state.get_filename env.gen_image,
          Event.persist it.state.generated, Event.publish env.gen_image,
          Event.persist (it.state.generated.posted env.now_post)],
        fsWrite fs it.state.get_filename env.gen_image,
        some ⟨it.state.generated.posted env.now_post, none, 0⟩) := by
  have h1 : produce_stage cfg it fs env =
      (sched_events cfg it.state.last_post env.draw env.now_sched ++
        [Event.produce, Event.fswrite it.state.get_filename env.gen_image,
          Event.persist it.state.generated],
        fsWrite fs it.state.get_filename env.gen_image,
        some ⟨it.state.generated, some env.gen_image, it.attempt⟩) := by
    simp [produce_stage, hph, hg]
  have h2 : publish_stage ⟨it.state.generated, some env.gen_image, it.attempt⟩
      (fsWrite fs it.state.get_filename env.gen_image) env =
      ([Event.publish env.gen_image, Event.persist (it.state.generated.posted env.now_post)],
        fsWrite fs it.state.get_filename env.gen_image,
        some ⟨it.state.generated.posted env.now_post, none, 0⟩) :=
    publish_stage_ok rfl rfl hp
  simp [loop_body, h1, h2]

theorem loop_body_gen_abort {cfg : BotConfig} {it : Iter} {fs : FS} {env : Env}
    (hph : it.state.phase = Phase.Generated)
    (hres : resolve_image it fs = none) :
    loop_body cfg it fs env = ([], fs, none) := by
  simp [loop_body, produce_stage_gen hph, publish_stage, hph, hres]

/-- C2: in every iteration of the loop, the artifact-file write precedes
any persist of a `Generated`-phase record (`coveredFrom` checks that every
such persist in the trace is preceded, within the trace, by a write of
that record's artifact path); consequently the durable-record invariant
"phase = Generated implies the artifact file for the current sequence id
exists" is preserved by every iteration. -/
theorem c2_generated_has_artifact (cfg : BotConfig) (it : Iter) (fs : FS) (env : Env)
    (d : State)
    (hinv : d.phase = Phase.Generated → fsLookup fs d.get_filename ≠ none) :
    coveredFrom [] (loop_body cfg it fs env).1 = true ∧
    ((applyDurable d (loop_body cfg it fs env).1).phase = Phase.Generated →
      fsLookup (loop_body cfg it fs env).2.1
        ((applyDurable d (loop_body cfg it fs env).1).get_filename) ≠ none) := by
  cases hph : it.state.phase
  case Awaiting =>
    cases hg : env.gen_ok
    case false =>
      rw [loop_body_awaiting_genfail hph hg]
      constructor
      · rw [coveredFrom_sched_append]
        rfl
      · rw [applyDurable_sched_append]
        simpa [applyDurable] using hinv
    case true =>
      cases hp : env.publish_ok
      case false =>
        rw [loop_body_awaiting_genok_pubfail hph hg hp]
        constructor
        · rw [coveredFrom_sched_append]
          simp [coveredFrom, State.generated, State.get_filename]
        · rw [applyDurable_sched_append]
          intro hgen
          simp only [applyDurable, List.foldl_cons, List.foldl_nil]
          have : (it.state.generated).get_filename = it.state.get_filename := rfl
          rw [this, fsLookup_fsWrite_self]
          simp
      case true =>
        rw [loop_body_awaiting_genok_pubok hph hg hp]
        constructor
        · rw [coveredFrom_sched_append]
          simp [coveredFrom, State.generated, State.get_filename, State.posted]
        · intro hgen
          rw [applyDurable_sched_append] at hgen
          simp [applyDurable, State.posted] at hgen
  case Generated =>
    rcases hres : resolve_image it fs with _ | img
    · rw [loop_body_gen_abort hph hres]
      exact ⟨rfl, by simpa [applyDurable] using hinv⟩
    · cases hp : env.publish_ok
      case false =>
        rw [loop_body_gen_fail hph hres hp]
        exact ⟨rfl, by simpa [applyDurable] using hinv⟩
      case true =>
        rw [loop_body_gen_ok hph hres hp]
        constructor
        · simp [coveredFrom, State.posted]
        · intro hgen
          simp [applyDurable, State.posted] at hgen

theorem c2_generated_has_artifact_witness :
    coveredFrom []
      (loop_body ⟨3600, 300⟩ ⟨⟨none, 1, Phase.Awaiting⟩, none, 0⟩ []
        ⟨0, 0, true, [9, 9], false, 50⟩).1 = true :=
  (c2_generated_has_artifact ⟨3600, 300⟩ ⟨⟨none, 1, Phase.Awaiting⟩, none, 0⟩ []
    ⟨0, 0, true, [9, 9], false, 50⟩ ⟨none, 1, Phase.Awaiting⟩
    (fun h => by simp at h)).1

theorem persists_append (a b : List Event) :
    persists (a ++ b) = persists a ++ persists b := by
  simp [persists]

theorem run_loop_fail_prefix (cfg : BotConfig) (fails : List Env) :
    ∀ (rest : List Env) (it : Iter) (fs : FS) (img : Bytes),
      (∀ e ∈ fails, e.publish_ok = false) →
      it.state.phase = Phase.Generated →
      it.current_image = some img →
      ∃ tr0,
        run_loop cfg it fs (fails ++ rest) =
          (tr0 ++ (run_loop cfg ⟨it.state, some img, it.attempt + fails.length⟩ fs rest).1,
            (run_loop cfg ⟨it.state, some img, it.attempt + fails.length⟩ fs rest).2.1,
            (run_loop cfg ⟨it.state, some img, it.attempt + fails.length⟩ fs rest).2.2) ∧
        persists tr0 = [] := by
  induction fails with
  | nil =>
    intro rest it fs img _ hph him
    refine ⟨[], ?_, rfl⟩
    obtain ⟨st, ci, a⟩ := it
    simp only [Iter.current_image] at him
    subst him
    simp
  | cons e fails ih =>
    intro rest it fs img hall hph him
    have hres : resolve_image it fs = some img := resolve_image_cached him
    have hlb := @loop_body_gen_fail cfg it fs e img hph hres (hall e (by simp))
    obtain ⟨tr0, heq, hp0⟩ := ih rest ⟨it.state, some img, it.attempt + 1⟩ fs img
      (fun e2 he2 => hall e2 (by simp [he2])) hph rfl
    dsimp only at heq
    have harith : it.attempt + 1 + fails.length = it.attempt + (fails.length + 1) := by omega
    rw [harith] at heq
    refine ⟨[Event.publish img,
      Event.sleep (Int.ofNat (get_backoff (it.attempt + 1)))] ++ tr0, ?_, ?_⟩
    · simp only [List.cons_append, run_loop, hlb, List.append_eq, heq, List.length_cons,
        List.append_assoc, List.nil_append]
    · rw [persists_append, hp0]
      rfl

/-- C1: starting an iteration in the `Generated` phase with the artifact
cached, any number of failed publish attempts followed by one success
leaves the loop with — and persists exactly once — a record whose `id` is
exactly one greater than before, `phase = Awaiting`, and `last_post` equal
to the clock reading at the success; the attempt counter is reset to 0 and
the cached artifact bytes are dropped. -/
theorem c1_failures_then_success (cfg : BotConfig) (it : Iter) (fs : FS) (img : Bytes)
    (fails : List Env) (esucc : Env)
    (hf : ∀ e ∈ fails, e.publish_ok = false)
    (hs : esucc.publish_ok = true)
    (hph : it.state.phase = Phase.Generated)
    (him : it.current_image = some img)
    (hid : it.state.id + 1 < 4294967296) :
    (run_loop cfg it fs (fails ++ [esucc])).2.2 =
      some ⟨⟨some esucc.now_post, it.state.id + 1, Phase.Awaiting⟩, none, 0⟩ ∧
    persists (run_loop cfg it fs (fails ++ [esucc])).1 =
      [⟨some esucc.now_post, it.state.id + 1, Phase.Awaiting⟩] ∧
    (run_loop cfg it fs (fails ++ [esucc])).2.1 = fs := by
  obtain ⟨tr0, heq, hp0⟩ := run_loop_fail_prefix cfg fails [esucc] it fs img hf hph him
  have hres : resolve_image ⟨it.state, some img, it.attempt + fails.length⟩ fs = some img :=
    resolve_image_cached rfl
  have hpost : it.state.posted esucc.now_post =
      ⟨some esucc.now_post, it.state.id + 1, Phase.Awaiting⟩ := by
    simp [State.posted, Nat.mod_eq_of_lt hid]
  have hlb := @loop_body_gen_ok cfg ⟨it.state, some img, it.attempt + fails.length⟩ fs
    esucc img hph hres hs
  have hrun1 : run_loop cfg ⟨it.state, some img, it.attempt + fails.length⟩ fs [esucc] =
      ([Event.publish img, Event.persist (it.state.posted esucc.now_post)], fs,
        some ⟨it.state.posted esucc.now_post, none, 0⟩) := by
    simp only [run_loop, hlb, List.append_nil]
  rw [hrun1] at heq
  rw [heq, hpost]
  refine ⟨rfl, ?_, rfl⟩
  rw [persists_append, hp0]
  rfl

theorem c1_failures_then_success_witness :
    (run_loop ⟨3600, 300⟩ ⟨⟨none, 1, Phase.Generated⟩, some [7], 0⟩ []
      ([⟨0, 0, true, [], false, 0⟩, ⟨0, 0, true, [], false, 0⟩] ++
        [⟨0, 0, true, [], true, 77⟩])).2.2 =
      some ⟨⟨some 77, 2, Phase.Awaiting⟩, none, 0⟩ :=
  (c1_failures_then_success ⟨3600, 300⟩ ⟨⟨none, 1, Phase.Generated⟩, some [7], 0⟩ [] [7]
    [⟨0, 0, true, [], false, 0⟩, ⟨0, 0, true, [], false, 0⟩] ⟨0, 0, true, [], true, 77⟩
    (by decide) rfl rfl rfl (by decide)).1
